import Mathlib

/-!
Formal model of the run-registry and cancellation coordinator of the
Searchbox server (`server.py`).

The registry `active_runs : Dict[str, Dict]` is modelled as an association
list with Python-dict semantics (lookup, insert-or-replace keeping position,
delete, in-place status mutation).  The poll loop of `process_query`
(lines 79-116) is modelled twice:

* a deterministic executable interpreter (`runTick` / `pollLoop`) driven by
  an oracle of gateway poll results, which also records a trace of gateway
  calls together with the registry contents at the moment of each call; and

* a small-step transition system (`Step`) in which the per-run poll loop is
  split into its atomic registry operations and interleaved with arbitrary
  `/api/stop` requests, used for invariants over all reachable states.

`stop_generation` (lines 118-124) is modelled directly: it returns a 404
("not found") signal when the run id is absent and otherwise only flips the
stored status to "cancelled".
-/

namespace Searchbox

/-- One value of the `active_runs` dictionary (server.py lines 72-76):
`{"thread_id": ..., "client": ..., "status": ...}`.  The OpenAI client object
is represented by the API key used to construct it. -/
structure RunEntry where
  thread_id : String
  client : String
  status : String
deriving DecidableEq

/-- The `active_runs` mapping, as an association list with unique keys
(Python dict). -/
abbrev Dict := List (String × RunEntry)

/-- Keys of the registry, in insertion order. -/
def keys (d : Dict) : List String := d.map Prod.fst

/-- Python dict lookup `d[k]` (as an option). -/
def dget : Dict → String → Option RunEntry
  | [], _ => none
  | p :: ps, k => if p.1 = k then some p.2 else dget ps k

/-- Python membership test `k in d`. -/
def dmem (d : Dict) (k : String) : Bool := (dget d k).isSome

/-- Python dict assignment `d[k] = v`: replaces the value in place if the key
is present, otherwise appends the new binding. -/
def dset : Dict → String → RunEntry → Dict
  | [], k, v => [(k, v)]
  | p :: ps, k, v => if p.1 = k then (k, v) :: ps else p :: dset ps k v

/-- Python `del d[k]` (call sites guard on membership). -/
def ddel : Dict → String → Dict
  | [], _ => []
  | p :: ps, k => if p.1 = k then ps else p :: ddel ps k

/-- Python `d[k]["status"] = st` (server.py line 123): mutates only the
status field of the stored entry. -/
def dsetStatus : Dict → String → String → Dict
  | [], _, _ => []
  | p :: ps, k, st =>
      if p.1 = k then (p.1, { p.2 with status := st }) :: ps
      else p :: dsetStatus ps k st

/-- Registration of a freshly started run (server.py lines 72-76). -/
def register (reg : Dict) (rid tid client : String) : Dict :=
  dset reg rid { thread_id := tid, client := client, status := "running" }

/-- Result of `POST /api/stop`: either the 404 detail
"Run not found or already completed" or `{"status": "stopping"}`. -/
inductive StopResult where
  | notFound
  | stopping
deriving DecidableEq

/-- `stop_generation` (server.py lines 118-124). -/
def stop_generation (reg : Dict) (run_id : String) : Dict × StopResult :=
  if dmem reg run_id then (dsetStatus reg run_id "cancelled", StopResult.stopping)
  else (reg, StopResult.notFound)

/-- Exceptions that can propagate to the handler at server.py line 113:
the `HTTPException` raised at line 97, transport/remote errors from a
gateway call, and a `KeyError` from the unguarded read at line 86. -/
inductive PyExc where
  | http (code : Nat) (detail : String)
  | gateway (msg : String)
  | keyError (key : String)
deriving DecidableEq

/-- Python `str(e)` for the exceptions above (starlette's `HTTPException`
stringifies as `"{status_code}: {detail}"`, `KeyError` as the quoted key). -/
def strOfExc : PyExc → String
  | PyExc.http code detail => toString code ++ ": " ++ detail
  | PyExc.gateway msg => msg
  | PyExc.keyError key => "'" ++ key ++ "'"

/-- The cleanup in the exception handler (server.py lines 114-115):
`if 'run' in locals() and run.id in active_runs: del active_runs[run.id]`. -/
def exceptCleanup (reg : Dict) (rid : String) : Dict :=
  if dmem reg rid then ddel reg rid else reg

/-- Outcome of one `process_query` request, as surfaced to the caller:
`{"status": "cancelled", "thread_id": ...}` (line 92), the success body
(lines 107-111), or the `HTTPException(500, str(e))` of line 116. -/
inductive LoopResult where
  | cancelled (thread_id : String)
  | completed (response thread_id run_id : String)
  | httpError (code : Nat) (detail : String)
deriving DecidableEq

/-- Gateway calls issued by the poll loop, each recorded together with the
registry contents at the moment the call is made. -/
inductive GwEvent where
  | pollRun (regAt : Dict)
  | cancelRun (regAt : Dict)
  | listMessages (regAt : Dict)
deriving DecidableEq

/-- Oracle input for one iteration of the `while True` loop: the outcome of
`runs.retrieve` (status string, or a transport error) and the outcome of
`runs.cancel` should it be called on this iteration. -/
structure Tick where
  poll : Except String String
  cancelOk : Except String Unit

/-- Result of one loop iteration: the request returns, or the loop
continues with an unchanged registry after the 0.5s sleep. -/
inductive TickOut where
  | ret (evs : List GwEvent) (reg : Dict) (r : LoopResult)
  | cont (evs : List GwEvent) (reg : Dict)

/-- One iteration of the poll loop (server.py lines 79-98), together with
the code it runs after `break` (lines 100-111) and the exception handler
(lines 113-116).  Faithful to the source order: `runs.retrieve` first, then
the cancellation check on the registry entry, then the interpretation of
the returned status (completed before failed), else sleep and continue. -/
def runTick (reg : Dict) (rid tid : String) (t : Tick)
    (listMsg : Except String String) : TickOut :=
  match t.poll with
  | Except.error m =>
      TickOut.ret [GwEvent.pollRun reg] (exceptCleanup reg rid)
        (LoopResult.httpError 500 (strOfExc (PyExc.gateway m)))
  | Except.ok st =>
      match dget reg rid with
      | none =>
          TickOut.ret [GwEvent.pollRun reg] (exceptCleanup reg rid)
            (LoopResult.httpError 500 (strOfExc (PyExc.keyError rid)))
      | some e =>
          if e.status = "cancelled" then
            match t.cancelOk with
            | Except.error m =>
                TickOut.ret [GwEvent.pollRun reg, GwEvent.cancelRun reg]
                  (exceptCleanup reg rid)
                  (LoopResult.httpError 500 (strOfExc (PyExc.gateway m)))
            | Except.ok _ =>
                TickOut.ret [GwEvent.pollRun reg, GwEvent.cancelRun reg]
                  (ddel reg rid) (LoopResult.cancelled tid)
          else if st = "completed" then
            match listMsg with
            | Except.error m =>
                TickOut.ret [GwEvent.pollRun reg, GwEvent.listMessages reg]
                  (exceptCleanup reg rid)
                  (LoopResult.httpError 500 (strOfExc (PyExc.gateway m)))
            | Except.ok text =>
                TickOut.ret [GwEvent.pollRun reg, GwEvent.listMessages reg]
                  (ddel reg rid) (LoopResult.completed text tid rid)
          else if st = "failed" then
            TickOut.ret [GwEvent.pollRun reg] (exceptCleanup reg rid)
              (LoopResult.httpError 500
                (strOfExc (PyExc.http 500 "Assistant run failed")))
          else
            TickOut.cont [GwEvent.pollRun reg] reg

/-- The whole `while True` loop driven by a finite oracle of ticks; returns
the trace of gateway calls, the final registry, and the surfaced result
(`none` when the oracle ran out before a terminal outcome). -/
def pollLoop : Dict → String → String → List Tick → Except String String →
    List GwEvent × Dict × Option LoopResult
  | reg, _, _, [], _ => ([], reg, none)
  | reg, rid, tid, t :: ts, listMsg =>
      match runTick reg rid tid t listMsg with
      | TickOut.ret evs reg2 r => (evs, reg2, some r)
      | TickOut.cont evs reg2 =>
          let rest := pollLoop reg2 rid tid ts listMsg
          (evs ++ rest.1, rest.2.1, rest.2.2)

/-- Thread selection of server.py lines 51-56.  Python truthiness:
`if not request.thread_id:` is taken both for `None` and for the empty
string, in which case a fresh thread is created and used; only a non-empty
`thread_id` is reused as given.  The boolean records whether
`threads.create()` was called. -/
def chooseThread : Option String → String → Bool × String
  | none, fresh => (true, fresh)
  | some s, fresh => if s = "" then (true, fresh) else (false, s)

/-- The registry-relevant part of `process_query` (lines 50-116): thread
selection, registration of the started run, then the poll loop.  The fresh
thread id and the run id assigned by the gateway are oracle parameters;
`postMessage`/`startRun` do not touch the registry and are elided. -/
def process_query_run (reg : Dict) (req_thread : Option String)
    (freshTid rid client : String) (ticks : List Tick)
    (listMsg : Except String String) :
    (Bool × String) × (List GwEvent × Dict × Option LoopResult) :=
  let c := chooseThread req_thread freshTid
  (c, pollLoop (register reg rid c.2 client) rid c.2 ticks listMsg)

/-- The registry after registering a run and then granting a cancel request
for it (the C1 scenario prefix). -/
def regAfterCancel (reg0 : Dict) (rid tid client : String) : Dict :=
  dsetStatus (register reg0 rid tid client) rid "cancelled"

/-! ### Small-step concurrent model

The poll loop of one run is split into its atomic operations on the shared
registry; loops of distinct runs and `/api/stop` requests interleave
arbitrarily.  This is a superset of the schedules the asyncio runtime can
produce, so invariants proved over it hold for the real program. -/

/-- Program counter of one poll-loop coroutine, between its atomic
registry/gateway operations. -/
inductive Phase where
  /-- About to call `runs.retrieve` (line 80). -/
  | poll
  /-- Retrieve returned status `st`; about to read the registry entry's
  status flag (line 86). -/
  | check (st : String)
  /-- Observed the cancelled flag; about to call `runs.cancel` (line 87). -/
  | cancelling
  /-- Remote cancel done; about to `del` the entry and return (lines 91-92). -/
  | reap
  /-- Broke out on completed; about to call `messages.list` (line 101). -/
  | fetching
  /-- Latest message fetched; about to `del` the entry and return
  (lines 105-111). -/
  | cleanup (msg : String)
  /-- In the exception handler with exception `e`; about to do the guarded
  delete and re-raise (lines 113-116). -/
  | excClean (e : PyExc)
  /-- Returned (or raised) with result `r`; the coroutine is gone. -/
  | finished (r : LoopResult)
deriving DecidableEq

/-- A phase in which the poll loop is still executing. -/
def Phase.isActive : Phase → Bool
  | Phase.finished _ => false
  | _ => true

/-- State of one poll-loop coroutine: its thread id and program counter. -/
structure LoopSt where
  tid : String
  ph : Phase
deriving DecidableEq

/-- Point update of the coroutine table. -/
def updLoops (f : String → Option LoopSt) (k : String) (v : Option LoopSt) :
    String → Option LoopSt :=
  fun k2 => if k2 = k then v else f k2

/-- Whole-system state: the shared `active_runs` registry and, per run id,
the state of the poll loop owning that run (if one was ever started). -/
structure Sys where
  reg : Dict
  loops : String → Option LoopSt

/-- Initial state: empty registry, no coroutines. -/
def initSys : Sys := ⟨[], fun _ => none⟩

/-- Atomic steps of the system: one registry-touching action of some poll
loop, a registration, or one `/api/stop` request (which runs without an
await point, hence atomically). -/
inductive Step : Sys → Sys → Prop where
  /-- Lines 72-76: a query handler registers its freshly started run
  (run ids from the gateway are fresh) and enters the loop. -/
  | register (s : Sys) (rid tid client : String)
      (hl : s.loops rid = none) (hr : dmem s.reg rid = false) :
      Step s ⟨register s.reg rid tid client,
              updLoops s.loops rid (some ⟨tid, Phase.poll⟩)⟩
  /-- Line 80: `runs.retrieve` returns status `st`. -/
  | pollOk (s : Sys) (rid : String) (ls : LoopSt) (st : String)
      (hl : s.loops rid = some ls) (hp : ls.ph = Phase.poll) :
      Step s ⟨s.reg, updLoops s.loops rid (some ⟨ls.tid, Phase.check st⟩)⟩
  /-- Line 80: `runs.retrieve` raises a transport error. -/
  | pollErr (s : Sys) (rid : String) (ls : LoopSt) (m : String)
      (hl : s.loops rid = some ls) (hp : ls.ph = Phase.poll) :
      Step s ⟨s.reg, updLoops s.loops rid
        (some ⟨ls.tid, Phase.excClean (PyExc.gateway m)⟩)⟩
  /-- Line 86: the entry's status reads "cancelled". -/
  | checkCancelled (s : Sys) (rid : String) (ls : LoopSt) (st : String)
      (e : RunEntry) (hl : s.loops rid = some ls) (hp : ls.ph = Phase.check st)
      (hg : dget s.reg rid = some e) (hc : e.status = "cancelled") :
      Step s ⟨s.reg, updLoops s.loops rid (some ⟨ls.tid, Phase.cancelling⟩)⟩
  /-- Line 86: the entry is missing, so the read raises `KeyError`.
  (Never enabled from a reachable state; see the invariant.) -/
  | checkMissing (s : Sys) (rid : String) (ls : LoopSt) (st : String)
      (hl : s.loops rid = some ls) (hp : ls.ph = Phase.check st)
      (hg : dget s.reg rid = none) :
      Step s ⟨s.reg, updLoops s.loops rid
        (some ⟨ls.tid, Phase.excClean (PyExc.keyError rid)⟩)⟩
  /-- Line 94: not cancelled and the status is "completed"; break. -/
  | checkCompleted (s : Sys) (rid : String) (ls : LoopSt) (e : RunEntry)
      (hl : s.loops rid = some ls) (hp : ls.ph = Phase.check "completed")
      (hg : dget s.reg rid = some e) (hc : e.status ≠ "cancelled") :
      Step s ⟨s.reg, updLoops s.loops rid (some ⟨ls.tid, Phase.fetching⟩)⟩
  /-- Lines 96-97: not cancelled and the status is "failed"; raise. -/
  | checkFailed (s : Sys) (rid : String) (ls : LoopSt) (e : RunEntry)
      (hl : s.loops rid = some ls) (hp : ls.ph = Phase.check "failed")
      (hg : dget s.reg rid = some e) (hc : e.status ≠ "cancelled") :
      Step s ⟨s.reg, updLoops s.loops rid
        (some ⟨ls.tid, Phase.excClean (PyExc.http 500 "Assistant run failed")⟩)⟩
  /-- Line 98: not cancelled, not terminal; sleep and loop. -/
  | checkSleep (s : Sys) (rid : String) (ls : LoopSt) (st : String)
      (e : RunEntry) (hl : s.loops rid = some ls) (hp : ls.ph = Phase.check st)
      (hg : dget s.reg rid = some e) (hc : e.status ≠ "cancelled")
      (h1 : st ≠ "completed") (h2 : st ≠ "failed") :
      Step s ⟨s.reg, updLoops s.loops rid (some ⟨ls.tid, Phase.poll⟩)⟩
  /-- Lines 87-90: `runs.cancel` succeeds. -/
  | cancelOk (s : Sys) (rid : String) (ls : LoopSt)
      (hl : s.loops rid = some ls) (hp : ls.ph = Phase.cancelling) :
      Step s ⟨s.reg, updLoops s.loops rid (some ⟨ls.tid, Phase.reap⟩)⟩
  /-- Lines 87-90: `runs.cancel` raises. -/
  | cancelErr (s : Sys) (rid : String) (ls : LoopSt) (m : String)
      (hl : s.loops rid = some ls) (hp : ls.ph = Phase.cancelling) :
      Step s ⟨s.reg, updLoops s.loops rid
        (some ⟨ls.tid, Phase.excClean (PyExc.gateway m)⟩)⟩
  /-- Lines 91-92: delete the entry and return the cancellation body. -/
  | reap (s : Sys) (rid : String) (ls : LoopSt)
      (hl : s.loops rid = some ls) (hp : ls.ph = Phase.reap) :
      Step s ⟨ddel s.reg rid, updLoops s.loops rid
        (some ⟨ls.tid, Phase.finished (LoopResult.cancelled ls.tid)⟩)⟩
  /-- Lines 101-102: `messages.list` returns the latest message. -/
  | fetchOk (s : Sys) (rid : String) (ls : LoopSt) (msg : String)
      (hl : s.loops rid = some ls) (hp : ls.ph = Phase.fetching) :
      Step s ⟨s.reg, updLoops s.loops rid (some ⟨ls.tid, Phase.cleanup msg⟩)⟩
  /-- Lines 101-102: `messages.list` raises. -/
  | fetchErr (s : Sys) (rid : String) (ls : LoopSt) (m : String)
      (hl : s.loops rid = some ls) (hp : ls.ph = Phase.fetching) :
      Step s ⟨s.reg, updLoops s.loops rid
        (some ⟨ls.tid, Phase.excClean (PyExc.gateway m)⟩)⟩
  /-- Lines 105-111: delete the entry and return the success body. -/
  | cleanup (s : Sys) (rid : String) (ls : LoopSt) (msg : String)
      (hl : s.loops rid = some ls) (hp : ls.ph = Phase.cleanup msg) :
      Step s ⟨ddel s.reg rid, updLoops s.loops rid
        (some ⟨ls.tid, Phase.finished (LoopResult.completed msg ls.tid rid)⟩)⟩
  /-- Lines 113-116: the handler deletes the entry if present and
  re-raises `HTTPException(500, str(e))`. -/
  | excClean (s : Sys) (rid : String) (ls : LoopSt) (e : PyExc)
      (hl : s.loops rid = some ls) (hp : ls.ph = Phase.excClean e) :
      Step s ⟨exceptCleanup s.reg rid, updLoops s.loops rid
        (some ⟨ls.tid, Phase.finished (LoopResult.httpError 500 (strOfExc e))⟩)⟩
  /-- Lines 118-124: a stop request finds the run and flips its status. -/
  | stopFound (s : Sys) (run_id : String) (h : dmem s.reg run_id = true) :
      Step s ⟨dsetStatus s.reg run_id "cancelled", s.loops⟩
  /-- Lines 120-121: a stop request for an absent run returns 404 and
  changes nothing. -/
  | stopMissing (s : Sys) (run_id : String) (h : dmem s.reg run_id = false) :
      Step s s

/-- Reachability from the initial state. -/
def Reachable (s : Sys) : Prop := Relation.ReflTransGen Step initSys s

/-- The registry invariant: keys are unique; an entry exists iff the poll
loop that registered it is still executing; and no loop is ever about to
handle a `KeyError` from its own flag read. -/
def Inv (s : Sys) : Prop :=
  (keys s.reg).Nodup ∧
  (∀ rid, dmem s.reg rid = true ↔
      ∃ ls, s.loops rid = some ls ∧ ls.ph.isActive = true) ∧
  (∀ rid ls k, s.loops rid = some ls → ls.ph ≠ Phase.excClean (PyExc.keyError k))

/-- Concrete reachable state: "r1" just registered with thread "t1". -/
def sysReg1 : Sys :=
  ⟨register initSys.reg "r1" "t1" "key1",
   updLoops initSys.loops "r1" (some ⟨"t1", Phase.poll⟩)⟩

/-- Concrete reachable state: the poll for "r1" returned "completed" and the
loop is about to read its own registry entry (line 86). -/
def sysCheck1 : Sys :=
  ⟨sysReg1.reg, updLoops sysReg1.loops "r1" (some ⟨"t1", Phase.check "completed"⟩)⟩

/-! ### Dictionary lemmas -/

lemma dget_dset_self (d : Dict) (k : String) (v : RunEntry) :
    dget (dset d k v) k = some v := by
  induction d with
  | nil => simp [dset, dget]
  | cons p ps ih =>
      by_cases h : p.1 = k
      · simp [dset, h, dget]
      · simp [dset, h, dget, ih]

lemma dget_dset_ne (d : Dict) (k k2 : String) (v : RunEntry) (h : k2 ≠ k) :
    dget (dset d k v) k2 = dget d k2 := by
  induction d with
  | nil => simp [dset, dget, Ne.symm h]
  | cons p ps ih =>
      by_cases h2 : p.1 = k
      · subst h2
        simp [dset, dget, Ne.symm h]
      · simp [dset, h2, dget, ih]

lemma dget_ddel_ne (d : Dict) (k k2 : String) (h : k2 ≠ k) :
    dget (ddel d k) k2 = dget d k2 := by
  induction d with
  | nil => simp [ddel]
  | cons p ps ih =>
      by_cases h2 : p.1 = k
      · subst h2
        simp [ddel, dget, Ne.symm h]
      · simp [ddel, h2, dget, ih]

lemma dget_eq_none_of_not_mem (d : Dict) (k : String) (h : k ∉ keys d) :
    dget d k = none := by
  induction d with
  | nil => simp [dget]
  | cons p ps ih =>
      simp only [keys, List.map_cons, List.mem_cons, not_or] at h
      have hne : p.1 ≠ k := fun he => h.1 he.symm
      simp only [dget, if_neg hne]
      exact ih (by simpa [keys] using h.2)

lemma dget_ddel_self (d : Dict) (k : String) (hnd : (keys d).Nodup) :
    dget (ddel d k) k = none := by
  induction d with
  | nil => simp [ddel, dget]
  | cons p ps ih =>
      simp only [keys, List.map_cons, List.nodup_cons] at hnd
      by_cases h2 : p.1 = k
      · subst h2
        simpa [ddel] using dget_eq_none_of_not_mem ps p.1 hnd.1
      · simp only [ddel, if_neg h2, dget, if_neg h2]
        exact ih hnd.2

lemma dget_dsetStatus_self (d : Dict) (k st : String) :
    dget (dsetStatus d k st) k =
      Option.map (fun e => { e with status := st }) (dget d k) := by
  induction d with
  | nil => simp [dsetStatus, dget]
  | cons p ps ih =>
      by_cases h2 : p.1 = k
      · simp [dsetStatus, h2, dget]
      · simp [dsetStatus, h2, dget, ih]

lemma dget_dsetStatus_ne (d : Dict) (k k2 st : String) (h : k2 ≠ k) :
    dget (dsetStatus d k st) k2 = dget d k2 := by
  induction d with
  | nil => simp [dsetStatus]
  | cons p ps ih =>
      by_cases h2 : p.1 = k
      · subst h2
        simp [dsetStatus, dget, Ne.symm h]
      · simp [dsetStatus, h2, dget, ih]

lemma keys_dsetStatus (d : Dict) (k st : String) :
    keys (dsetStatus d k st) = keys d := by
  induction d with
  | nil => simp [dsetStatus]
  | cons p ps ih =>
      by_cases h2 : p.1 = k
      · simp [dsetStatus, h2, keys]
      · simp only [dsetStatus, if_neg h2, keys, List.map_cons]
        simpa [keys] using ih

lemma mem_keys_dset (d : Dict) (k k2 : String) (v : RunEntry)
    (h : k2 ∈ keys (dset d k v)) : k2 ∈ keys d ∨ k2 = k := by
  induction d with
  | nil =>
      simp only [dset, keys, List.map_cons, List.map_nil, List.mem_singleton] at h
      exact Or.inr h
  | cons p ps ih =>
      by_cases h2 : p.1 = k
      · simp only [dset, if_pos h2, keys, List.map_cons, List.mem_cons] at h
        rcases h with h | h
        · exact Or.inr h
        · exact Or.inl (by simp [keys, List.mem_cons]; right; simpa [keys] using h)
      · simp only [dset, if_neg h2, keys, List.map_cons, List.mem_cons] at h
        rcases h with h | h
        · exact Or.inl (by simp [keys, h])
        · rcases ih (by simpa [keys] using h) with h3 | h3
          · exact Or.inl (by simp [keys, List.mem_cons]; right; simpa [keys] using h3)
          · exact Or.inr h3

lemma nodup_keys_dset (d : Dict) (k : String) (v : RunEntry)
    (hnd : (keys d).Nodup) : (keys (dset d k v)).Nodup := by
  induction d with
  | nil => simp [dset, keys]
  | cons p ps ih =>
      simp only [keys, List.map_cons, List.nodup_cons] at hnd
      by_cases h2 : p.1 = k
      · subst h2
        have hr : dset (p :: ps) p.1 v = (p.1, v) :: ps := by simp [dset]
        rw [hr]
        simp only [keys, List.map_cons, List.nodup_cons]
        exact ⟨by simpa [keys] using hnd.1, by simpa [keys] using hnd.2⟩
      · simp only [dset, if_neg h2, keys, List.map_cons, List.nodup_cons]
        constructor
        · intro hmem
          rcases mem_keys_dset ps k p.1 v (by simpa [keys] using hmem) with h3 | h3
          · exact hnd.1 (by simpa [keys] using h3)
          · exact h2 h3
        · exact by simpa [keys] using ih (by simpa [keys] using hnd.2)

lemma mem_keys_ddel (d : Dict) (k k2 : String)
    (h : k2 ∈ keys (ddel d k)) : k2 ∈ keys d := by
  induction d with
  | nil => simpa [ddel] using h
  | cons p ps ih =>
      by_cases h2 : p.1 = k
      · simp only [ddel, if_pos h2] at h
        simp [keys, List.mem_cons]
        right
        simpa [keys] using h
      · simp only [ddel, if_neg h2, keys, List.map_cons, List.mem_cons] at h
        rcases h with h | h
        · simp [keys, h]
        · simp [keys, List.mem_cons]
          right
          simpa [keys] using ih (by simpa [keys] using h)

lemma nodup_keys_ddel (d : Dict) (k : String) (hnd : (keys d).Nodup) :
    (keys (ddel d k)).Nodup := by
  induction d with
  | nil => simp [ddel, keys]
  | cons p ps ih =>
      simp only [keys, List.map_cons, List.nodup_cons] at hnd
      by_cases h2 : p.1 = k
      · simpa [ddel, h2, keys] using hnd.2
      · simp only [ddel, if_neg h2, keys, List.map_cons, List.nodup_cons]
        refine ⟨fun hmem => hnd.1 ?_, by simpa [keys] using ih (by simpa [keys] using hnd.2)⟩
        simpa [keys] using mem_keys_ddel ps k p.1 (by simpa [keys] using hmem)

lemma dmem_dset_self (d : Dict) (k : String) (v : RunEntry) :
    dmem (dset d k v) k = true := by
  simp [dmem, dget_dset_self]

lemma dmem_dset_ne (d : Dict) (k k2 : String) (v : RunEntry) (h : k2 ≠ k) :
    dmem (dset d k v) k2 = dmem d k2 := by
  simp [dmem, dget_dset_ne d k k2 v h]

lemma dmem_ddel_self (d : Dict) (k : String) (hnd : (keys d).Nodup) :
    dmem (ddel d k) k = false := by
  simp [dmem, dget_ddel_self d k hnd]

lemma dmem_ddel_ne (d : Dict) (k k2 : String) (h : k2 ≠ k) :
    dmem (ddel d k) k2 = dmem d k2 := by
  simp [dmem, dget_ddel_ne d k k2 h]

lemma dmem_dsetStatus (d : Dict) (k k2 st : String) :
    dmem (dsetStatus d k st) k2 = dmem d k2 := by
  by_cases h : k2 = k
  · subst h
    simp only [dmem, dget_dsetStatus_self]
    cases dget d k2 <;> simp
  · simp [dmem, dget_dsetStatus_ne d k k2 st h]

lemma dmem_exceptCleanup_self (d : Dict) (k : String) (hnd : (keys d).Nodup) :
    dmem (exceptCleanup d k) k = false := by
  by_cases h : dmem d k
  · simp [exceptCleanup, h, dmem_ddel_self d k hnd]
  · simp only [Bool.not_eq_true] at h
    simp [exceptCleanup, h]

lemma dmem_exceptCleanup_ne (d : Dict) (k k2 : String) (h : k2 ≠ k) :
    dmem (exceptCleanup d k) k2 = dmem d k2 := by
  by_cases h2 : dmem d k
  · simp [exceptCleanup, h2, dmem_ddel_ne d k k2 h]
  · simp only [Bool.not_eq_true] at h2
    simp [exceptCleanup, h2]

lemma exceptCleanup_eq_ddel (d : Dict) (k : String) (h : dmem d k = true) :
    exceptCleanup d k = ddel d k := by
  simp [exceptCleanup, h]

/-! ### Invariant preservation for the concurrent model -/

lemma updLoops_self (f : String → Option LoopSt) (k : String) (v : Option LoopSt) :
    updLoops f k v k = v := by
  simp [updLoops]

lemma updLoops_ne (f : String → Option LoopSt) (k : String) (v : Option LoopSt)
    (k2 : String) (h : k2 ≠ k) : updLoops f k v k2 = f k2 := by
  simp [updLoops, h]

lemma inv_initSys : Inv initSys := by
  refine ⟨by simp [initSys, keys], fun rid => ?_, fun rid ls k h => by simp [initSys] at h⟩
  simp [initSys, dmem, dget]

lemma inv_updPhase {s : Sys} {rid : String} {ls : LoopSt} (h : Inv s)
    (hl : s.loops rid = some ls) (hact : ls.ph.isActive = true)
    (tid2 : String) (ph2 : Phase) (hact2 : ph2.isActive = true)
    (hk : ∀ k, ph2 ≠ Phase.excClean (PyExc.keyError k)) :
    Inv ⟨s.reg, updLoops s.loops rid (some ⟨tid2, ph2⟩)⟩ := by
  refine ⟨h.1, fun rid2 => ?_, fun rid2 ls2 k hl2 => ?_⟩
  · dsimp only
    by_cases he : rid2 = rid
    · subst he
      exact iff_of_true ((h.2.1 rid2).mpr ⟨ls, hl, hact⟩)
        ⟨⟨tid2, ph2⟩, updLoops_self s.loops rid2 _, hact2⟩
    · rw [updLoops_ne s.loops rid _ rid2 he]
      exact h.2.1 rid2
  · dsimp only at hl2
    by_cases he : rid2 = rid
    · subst he
      rw [updLoops_self] at hl2
      rw [Option.some.injEq] at hl2
      rw [← hl2]
      exact hk k
    · rw [updLoops_ne s.loops rid _ rid2 he] at hl2
      exact h.2.2 rid2 ls2 k hl2

lemma inv_finishDel {s : Sys} {rid : String} {ls : LoopSt} (h : Inv s)
    (hl : s.loops rid = some ls) (r : LoopResult) :
    Inv ⟨ddel s.reg rid, updLoops s.loops rid
      (some ⟨ls.tid, Phase.finished r⟩)⟩ := by
  refine ⟨nodup_keys_ddel s.reg rid h.1, fun rid2 => ?_, fun rid2 ls2 k hl2 => ?_⟩
  · dsimp only
    by_cases he : rid2 = rid
    · subst he
      refine iff_of_false (fun hc => ?_) (fun hc => ?_)
      · rw [dmem_ddel_self s.reg rid2 h.1] at hc
        simp at hc
      · rcases hc with ⟨ls2, hls2, hact2⟩
        rw [updLoops_self] at hls2
        rw [Option.some.injEq] at hls2
        rw [← hls2] at hact2
        simp [Phase.isActive] at hact2
    · rw [dmem_ddel_ne s.reg rid rid2 he, updLoops_ne s.loops rid _ rid2 he]
      exact h.2.1 rid2
  · dsimp only at hl2
    by_cases he : rid2 = rid
    · subst he
      rw [updLoops_self] at hl2
      rw [Option.some.injEq] at hl2
      rw [← hl2]
      simp
    · rw [updLoops_ne s.loops rid _ rid2 he] at hl2
      exact h.2.2 rid2 ls2 k hl2

lemma inv_step {s s' : Sys} (h : Inv s) (hs : Step s s') : Inv s' := by
  cases hs with
  | register rid tid client hl hr =>
      refine ⟨nodup_keys_dset s.reg rid _ h.1, fun rid2 => ?_, fun rid2 ls2 k hl2 => ?_⟩
      · dsimp only [register]
        by_cases he : rid2 = rid
        · subst he
          exact iff_of_true (dmem_dset_self s.reg rid2 _)
            ⟨⟨tid, Phase.poll⟩, updLoops_self s.loops rid2 _, rfl⟩
        · rw [dmem_dset_ne s.reg rid rid2 _ he, updLoops_ne s.loops rid _ rid2 he]
          exact h.2.1 rid2
      · dsimp only at hl2
        by_cases he : rid2 = rid
        · subst he
          rw [updLoops_self] at hl2
          rw [Option.some.injEq] at hl2
          rw [← hl2]
          simp
        · rw [updLoops_ne s.loops rid _ rid2 he] at hl2
          exact h.2.2 rid2 ls2 k hl2
  | pollOk rid ls st hl hp =>
      exact inv_updPhase h hl (by rw [hp]; rfl) ls.tid (Phase.check st) rfl
        (fun k => by simp)
  | pollErr rid ls m hl hp =>
      exact inv_updPhase h hl (by rw [hp]; rfl) ls.tid
        (Phase.excClean (PyExc.gateway m)) rfl (fun k => by simp)
  | checkCancelled rid ls st e hl hp hg hc =>
      exact inv_updPhase h hl (by rw [hp]; rfl) ls.tid Phase.cancelling rfl
        (fun k => by simp)
  | checkMissing rid ls st hl hp hg =>
      have hd : dmem s.reg rid = true := (h.2.1 rid).mpr ⟨ls, hl, by rw [hp]; rfl⟩
      simp [dmem, hg] at hd
  | checkCompleted rid ls e hl hp hg hc =>
      exact inv_updPhase h hl (by rw [hp]; rfl) ls.tid Phase.fetching rfl
        (fun k => by simp)
  | checkFailed rid ls e hl hp hg hc =>
      exact inv_updPhase h hl (by rw [hp]; rfl) ls.tid
        (Phase.excClean (PyExc.http 500 "Assistant run failed")) rfl
        (fun k => by simp)
  | checkSleep rid ls st e hl hp hg hc h1 h2 =>
      exact inv_updPhase h hl (by rw [hp]; rfl) ls.tid Phase.poll rfl
        (fun k => by simp)
  | cancelOk rid ls hl hp =>
      exact inv_updPhase h hl (by rw [hp]; rfl) ls.tid Phase.reap rfl
        (fun k => by simp)
  | cancelErr rid ls m hl hp =>
      exact inv_updPhase h hl (by rw [hp]; rfl) ls.tid
        (Phase.excClean (PyExc.gateway m)) rfl (fun k => by simp)
  | reap rid ls hl hp =>
      exact inv_finishDel h hl _
  | fetchOk rid ls msg hl hp =>
      exact inv_updPhase h hl (by rw [hp]; rfl) ls.tid (Phase.cleanup msg) rfl
        (fun k => by simp)
  | fetchErr rid ls m hl hp =>
      exact inv_updPhase h hl (by rw [hp]; rfl) ls.tid
        (Phase.excClean (PyExc.gateway m)) rfl (fun k => by simp)
  | cleanup rid ls msg hl hp =>
      exact inv_finishDel h hl _
  | excClean rid ls e hl hp =>
      have hd : dmem s.reg rid = true := (h.2.1 rid).mpr ⟨ls, hl, by rw [hp]; rfl⟩
      rw [show exceptCleanup s.reg rid = ddel s.reg rid from
        exceptCleanup_eq_ddel s.reg rid hd]
      exact inv_finishDel h hl _
  | stopFound run_id hmem =>
      refine ⟨?_, fun rid2 => ?_, h.2.2⟩
      · dsimp only
        rw [keys_dsetStatus s.reg run_id "cancelled"]
        exact h.1
      · dsimp only
        rw [dmem_dsetStatus s.reg run_id rid2 "cancelled"]
        exact h.2.1 rid2
  | stopMissing run_id hmem => exact h

lemma reachable_inv {s : Sys} (h : Reachable s) : Inv s := by
  induction h with
  | refl => exact inv_initSys
  | tail hsteps hstep ih => exact inv_step ih hstep

/-- Any step that removes `rid` from the registry is a terminal step of the
poll loop owning `rid`: the deletion on observing the cancelled flag, the
deletion on terminal success, or the cleanup in the exception handler. -/
lemma step_removal {s s' : Sys} {rid : String} (hstep : Step s s')
    (hmem : dmem s.reg rid = true) (hmem' : dmem s'.reg rid = false) :
    ∃ ls r, s.loops rid = some ls ∧ ls.ph.isActive = true ∧
      s'.loops rid = some ⟨ls.tid, Phase.finished r⟩ ∧
      (ls.ph = Phase.reap ∨ (∃ m, ls.ph = Phase.cleanup m) ∨
        (∃ e, ls.ph = Phase.excClean e)) := by
  cases hstep with
  | register rid0 tid client hl hr =>
      by_cases he : rid = rid0
      · subst he
        exact Bool.noConfusion ((dmem_dset_self s.reg rid _).symm.trans hmem')
      · exact Bool.noConfusion
          (((dmem_dset_ne s.reg rid0 rid _ he).trans hmem).symm.trans hmem')
  | pollOk rid0 ls st hl hp => exact Bool.noConfusion (hmem.symm.trans hmem')
  | pollErr rid0 ls m hl hp => exact Bool.noConfusion (hmem.symm.trans hmem')
  | checkCancelled rid0 ls st e hl hp hg hc =>
      exact Bool.noConfusion (hmem.symm.trans hmem')
  | checkMissing rid0 ls st hl hp hg =>
      exact Bool.noConfusion (hmem.symm.trans hmem')
  | checkCompleted rid0 ls e hl hp hg hc =>
      exact Bool.noConfusion (hmem.symm.trans hmem')
  | checkFailed rid0 ls e hl hp hg hc =>
      exact Bool.noConfusion (hmem.symm.trans hmem')
  | checkSleep rid0 ls st e hl hp hg hc h1 h2 =>
      exact Bool.noConfusion (hmem.symm.trans hmem')
  | cancelOk rid0 ls hl hp => exact Bool.noConfusion (hmem.symm.trans hmem')
  | cancelErr rid0 ls m hl hp => exact Bool.noConfusion (hmem.symm.trans hmem')
  | reap rid0 ls hl hp =>
      by_cases he : rid = rid0
      · subst he
        refine ⟨ls, LoopResult.cancelled ls.tid, hl, by rw [hp]; rfl, ?_, Or.inl hp⟩
        exact updLoops_self s.loops rid _
      · exact Bool.noConfusion
          (((dmem_ddel_ne s.reg rid0 rid he).trans hmem).symm.trans hmem')
  | fetchOk rid0 ls msg hl hp => exact Bool.noConfusion (hmem.symm.trans hmem')
  | fetchErr rid0 ls m hl hp => exact Bool.noConfusion (hmem.symm.trans hmem')
  | cleanup rid0 ls msg hl hp =>
      by_cases he : rid = rid0
      · subst he
        refine ⟨ls, LoopResult.completed msg ls.tid rid, hl, by rw [hp]; rfl, ?_,
          Or.inr (Or.inl ⟨msg, hp⟩)⟩
        exact updLoops_self s.loops rid _
      · exact Bool.noConfusion
          (((dmem_ddel_ne s.reg rid0 rid he).trans hmem).symm.trans hmem')
  | excClean rid0 ls e hl hp =>
      by_cases he : rid = rid0
      · subst he
        refine ⟨ls, LoopResult.httpError 500 (strOfExc e), hl, by rw [hp]; rfl, ?_,
          Or.inr (Or.inr ⟨e, hp⟩)⟩
        exact updLoops_self s.loops rid _
      · exact Bool.noConfusion
          (((dmem_exceptCleanup_ne s.reg rid0 rid he).trans hmem).symm.trans hmem')
  | stopFound run_id hm =>
      exact Bool.noConfusion
        (((dmem_dsetStatus s.reg run_id rid "cancelled").trans hmem).symm.trans hmem')
  | stopMissing run_id hm => exact Bool.noConfusion (hmem.symm.trans hmem')

lemma updLoops_finished {f : String → Option LoopSt} {rid0 : String}
    {ls : LoopSt} (v : Option LoopSt) (hl : f rid0 = some ls)
    (hact : ls.ph.isActive = true) {rid t : String} {r : LoopResult}
    (h : f rid = some ⟨t, Phase.finished r⟩) :
    updLoops f rid0 v rid = some ⟨t, Phase.finished r⟩ := by
  by_cases he : rid = rid0
  · subst he
    rw [h] at hl
    rw [Option.some.injEq] at hl
    rw [← hl] at hact
    simp [Phase.isActive] at hact
  · rw [updLoops_ne f rid0 v rid he]
    exact h

/-- Once a poll loop has finished, its coroutine entry is frozen: no step
re-registers or re-activates the run id, and the recorded result never
changes. -/
lemma step_finished {s s' : Sys} {rid t : String} {r : LoopResult}
    (hstep : Step s s') (h : s.loops rid = some ⟨t, Phase.finished r⟩) :
    s'.loops rid = some ⟨t, Phase.finished r⟩ := by
  cases hstep with
  | register rid0 tid client hl hr =>
      by_cases he : rid = rid0
      · subst he
        rw [h] at hl
        exact Option.noConfusion hl
      · exact (updLoops_ne s.loops rid0 _ rid he).trans h
  | pollOk rid0 ls st hl hp =>
      exact updLoops_finished _ hl (by rw [hp]; rfl) h
  | pollErr rid0 ls m hl hp =>
      exact updLoops_finished _ hl (by rw [hp]; rfl) h
  | checkCancelled rid0 ls st e hl hp hg hc =>
      exact updLoops_finished _ hl (by rw [hp]; rfl) h
  | checkMissing rid0 ls st hl hp hg =>
      exact updLoops_finished _ hl (by rw [hp]; rfl) h
  | checkCompleted rid0 ls e hl hp hg hc =>
      exact updLoops_finished _ hl (by rw [hp]; rfl) h
  | checkFailed rid0 ls e hl hp hg hc =>
      exact updLoops_finished _ hl (by rw [hp]; rfl) h
  | checkSleep rid0 ls st e hl hp hg hc h1 h2 =>
      exact updLoops_finished _ hl (by rw [hp]; rfl) h
  | cancelOk rid0 ls hl hp =>
      exact updLoops_finished _ hl (by rw [hp]; rfl) h
  | cancelErr rid0 ls m hl hp =>
      exact updLoops_finished _ hl (by rw [hp]; rfl) h
  | reap rid0 ls hl hp =>
      exact updLoops_finished _ hl (by rw [hp]; rfl) h
  | fetchOk rid0 ls msg hl hp =>
      exact updLoops_finished _ hl (by rw [hp]; rfl) h
  | fetchErr rid0 ls m hl hp =>
      exact updLoops_finished _ hl (by rw [hp]; rfl) h
  | cleanup rid0 ls msg hl hp =>
      exact updLoops_finished _ hl (by rw [hp]; rfl) h
  | excClean rid0 ls e hl hp =>
      exact updLoops_finished _ hl (by rw [hp]; rfl) h
  | stopFound run_id hm => exact h
  | stopMissing run_id hm => exact h

/-! ### Per-tick lemmas for the deterministic interpreter -/

lemma runTick_cont {reg : Dict} {rid tid : String} {t : Tick}
    {lm : Except String String} {evs : List GwEvent} {reg2 : Dict}
    (h : runTick reg rid tid t lm = TickOut.cont evs reg2) :
    reg2 = reg ∧ evs = [GwEvent.pollRun reg] := by
  cases hp : t.poll with
  | error m => simp [runTick, hp] at h
  | ok st =>
      cases hg : dget reg rid with
      | none => simp [runTick, hp, hg] at h
      | some e =>
          by_cases hc : e.status = "cancelled"
          · cases hk : t.cancelOk with
            | error m => simp [runTick, hp, hg, hc, hk] at h
            | ok u => simp [runTick, hp, hg, hc, hk] at h
          · by_cases h1 : st = "completed"
            · cases hm : lm with
              | error m => simp [runTick, hp, hg, hc, h1, hm] at h
              | ok text => simp [runTick, hp, hg, hc, h1, hm] at h
            · by_cases h2 : st = "failed"
              · simp [runTick, hp, hg, hc, h1, h2] at h
              · simp [runTick, hp, hg, hc, h1, h2] at h
                exact ⟨h.2.symm, h.1.symm⟩

lemma runTick_ret_dmem {reg : Dict} {rid tid : String} {t : Tick}
    {lm : Except String String} {evs : List GwEvent} {reg2 : Dict}
    {r : LoopResult} (hnd : (keys reg).Nodup)
    (h : runTick reg rid tid t lm = TickOut.ret evs reg2 r) :
    dmem reg2 rid = false := by
  cases hp : t.poll with
  | error m =>
      simp [runTick, hp] at h
      rw [← h.2.1]
      exact dmem_exceptCleanup_self reg rid hnd
  | ok st =>
      cases hg : dget reg rid with
      | none =>
          simp [runTick, hp, hg] at h
          rw [← h.2.1]
          exact dmem_exceptCleanup_self reg rid hnd
      | some e =>
          by_cases hc : e.status = "cancelled"
          · cases hk : t.cancelOk with
            | error m =>
                simp [runTick, hp, hg, hc, hk] at h
                rw [← h.2.1]
                exact dmem_exceptCleanup_self reg rid hnd
            | ok u =>
                simp [runTick, hp, hg, hc, hk] at h
                rw [← h.2.1]
                exact dmem_ddel_self reg rid hnd
          · by_cases h1 : st = "completed"
            · cases hm : lm with
              | error m =>
                  simp [runTick, hp, hg, hc, h1, hm] at h
                  rw [← h.2.1]
                  exact dmem_exceptCleanup_self reg rid hnd
              | ok text =>
                  simp [runTick, hp, hg, hc, h1, hm] at h
                  rw [← h.2.1]
                  exact dmem_ddel_self reg rid hnd
            · by_cases h2 : st = "failed"
              · simp [runTick, hp, hg, hc, h1, h2] at h
                rw [← h.2.1]
                exact dmem_exceptCleanup_self reg rid hnd
              · simp [runTick, hp, hg, hc, h1, h2] at h

/-! ### Concrete reachable states for the concurrent model -/

lemma step_init_reg1 : Step initSys sysReg1 :=
  Step.register initSys "r1" "t1" "key1" rfl rfl

lemma step_reg1_check1 : Step sysReg1 sysCheck1 :=
  Step.pollOk sysReg1 "r1" ⟨"t1", Phase.poll⟩ "completed" (by decide) rfl

lemma reach_reg1 : Reachable sysReg1 :=
  Relation.ReflTransGen.single step_init_reg1

lemma reach_check1 : Reachable sysCheck1 :=
  Relation.ReflTransGen.tail reach_reg1 step_reg1_check1

/-! ### The claims -/

/-- Claim C1: for a registered run whose cancel request was granted before
the next cancellation check of the poll loop: the stop endpoint acknowledges
with "stopping"; on the next tick (whatever status the gateway reports) the
loop issues `cancelRun`, removes the entry, and returns Cancelled with the
thread identifier; a subsequent registry lookup of the run id yields nothing
and a subsequent stop request yields NotFound. -/
theorem claim1_cancel_roundtrip (reg0 : Dict) (rid tid client st : String)
    (ts : List Tick) (lm : Except String String)
    (hnd : (keys reg0).Nodup) (_hfresh : dmem reg0 rid = false) :
    stop_generation (register reg0 rid tid client) rid =
      (regAfterCancel reg0 rid tid client, StopResult.stopping) ∧
    pollLoop (regAfterCancel reg0 rid tid client) rid tid
        ({ poll := Except.ok st, cancelOk := Except.ok () } :: ts) lm =
      ([GwEvent.pollRun (regAfterCancel reg0 rid tid client),
        GwEvent.cancelRun (regAfterCancel reg0 rid tid client)],
       ddel (regAfterCancel reg0 rid tid client) rid,
       some (LoopResult.cancelled tid)) ∧
    dget (ddel (regAfterCancel reg0 rid tid client) rid) rid = none ∧
    (stop_generation (ddel (regAfterCancel reg0 rid tid client) rid) rid).2 =
      StopResult.notFound := by
  have hm : dmem (register reg0 rid tid client) rid = true :=
    dmem_dset_self reg0 rid _
  have hget : dget (regAfterCancel reg0 rid tid client) rid =
      some ⟨tid, client, "cancelled"⟩ := by
    show dget (dsetStatus (register reg0 rid tid client) rid "cancelled") rid = _
    rw [dget_dsetStatus_self]
    rw [show dget (register reg0 rid tid client) rid =
      some ⟨tid, client, "running"⟩ from dget_dset_self reg0 rid _]
    rfl
  have hnd2 : (keys (regAfterCancel reg0 rid tid client)).Nodup := by
    show (keys (dsetStatus (register reg0 rid tid client) rid "cancelled")).Nodup
    rw [keys_dsetStatus]
    exact nodup_keys_dset reg0 rid _ hnd
  refine ⟨?_, ?_, dget_ddel_self _ rid hnd2, ?_⟩
  · simp [stop_generation, hm, regAfterCancel]
  · simp [pollLoop, runTick, hget]
  · have hnomem : dmem (ddel (regAfterCancel reg0 rid tid client) rid) rid = false :=
      dmem_ddel_self _ rid hnd2
    simp [stop_generation, hnomem]

theorem claim1_witness :
    dmem ([] : Dict) "r1" = false ∧
    (stop_generation (register [] "r1" "t1" "key1") "r1").2 = StopResult.stopping ∧
    dget (ddel (regAfterCancel [] "r1" "t1" "key1") "r1") "r1" = none := by
  have h := claim1_cancel_roundtrip [] "r1" "t1" "key1" "queued" [] (Except.ok "x")
    (by decide) (by decide)
  refine ⟨by decide, ?_, h.2.2.1⟩
  rw [h.1]

/-- Claim C2: over every reachable state, an entry exists in the registry
iff the poll loop that registered it is still executing; keys are unique;
every removal of an entry is performed by the owning poll loop as one of its
three terminal actions (cancel-observed, terminal success/cleanup, or
exception cleanup); and a finished loop stays finished with its run id
absent, so each entry is removed exactly once. -/
theorem claim2_registry_invariant (s : Sys) (h : Reachable s) :
    (keys s.reg).Nodup ∧
    (∀ rid, dmem s.reg rid = true ↔
        ∃ ls, s.loops rid = some ls ∧ ls.ph.isActive = true) ∧
    (∀ s' rid, Step s s' → dmem s.reg rid = true → dmem s'.reg rid = false →
        ∃ ls r, s.loops rid = some ls ∧ ls.ph.isActive = true ∧
          s'.loops rid = some ⟨ls.tid, Phase.finished r⟩ ∧
          (ls.ph = Phase.reap ∨ (∃ m, ls.ph = Phase.cleanup m) ∨
            (∃ e, ls.ph = Phase.excClean e))) ∧
    (∀ s' rid t r, Step s s' → s.loops rid = some ⟨t, Phase.finished r⟩ →
        s'.loops rid = some ⟨t, Phase.finished r⟩ ∧ dmem s'.reg rid = false) := by
  have hi := reachable_inv h
  refine ⟨hi.1, hi.2.1, fun s' rid hstep hm hm' => step_removal hstep hm hm',
    fun s' rid t r hstep hfin => ?_⟩
  have h2 := step_finished hstep hfin
  have hi' := inv_step hi hstep
  refine ⟨h2, ?_⟩
  cases hb : dmem s'.reg rid with
  | false => rfl
  | true =>
      obtain ⟨ls2, hl2, hact2⟩ := (hi'.2.1 rid).mp hb
      rw [h2] at hl2
      rw [Option.some.injEq] at hl2
      rw [← hl2] at hact2
      simp [Phase.isActive] at hact2

theorem claim2_witness :
    (keys sysReg1.reg).Nodup ∧
    (dmem sysReg1.reg "r1" = true ↔
      ∃ ls, sysReg1.loops "r1" = some ls ∧ ls.ph.isActive = true) := by
  have h := claim2_registry_invariant sysReg1 reach_reg1
  exact ⟨h.1, h.2.1 "r1"⟩

/-- Claim C3 counterexample: immediately repeated requestCancel.  The stop
endpoint never removes the entry, so with no intervening poll tick the
second call still finds the run and returns the "stopping" acknowledgment
again — not NotFound as the claim states. -/
theorem claim3_counterexample :
    (stop_generation (stop_generation (register [] "r1" "t1" "key1") "r1").1 "r1").2 =
      StopResult.stopping ∧
    (stop_generation (stop_generation (register [] "r1" "t1" "key1") "r1").1 "r1").2 ≠
      StopResult.notFound :=
  ⟨rfl, by decide⟩

/-- Claim C3 (amended): requestCancel only flips the status flag and never
removes the entry, so with no intervening poll tick a second call returns
success again (idempotent flag set) and the entry is still present with
status "cancelled"; NotFound is returned exactly for run ids absent from
the registry (never registered, or already removed by the poll loop). -/
theorem claim3_amended_idempotent (reg : Dict) (rid : String)
    (hmem : dmem reg rid = true) :
    (stop_generation reg rid).2 = StopResult.stopping ∧
    (stop_generation (stop_generation reg rid).1 rid).2 = StopResult.stopping ∧
    dmem (stop_generation (stop_generation reg rid).1 rid).1 rid = true ∧
    Option.map RunEntry.status
      (dget (stop_generation (stop_generation reg rid).1 rid).1 rid) =
      some "cancelled" ∧
    (∀ reg2 : Dict, dmem reg2 rid = false →
      (stop_generation reg2 rid).2 = StopResult.notFound) := by
  have h1 : stop_generation reg rid =
      (dsetStatus reg rid "cancelled", StopResult.stopping) := by
    simp [stop_generation, hmem]
  have hmem2 : dmem (dsetStatus reg rid "cancelled") rid = true := by
    rw [dmem_dsetStatus]
    exact hmem
  have h2 : stop_generation (dsetStatus reg rid "cancelled") rid =
      (dsetStatus (dsetStatus reg rid "cancelled") rid "cancelled",
        StopResult.stopping) := by
    simp [stop_generation, hmem2]
  obtain ⟨e, he⟩ := Option.isSome_iff_exists.mp hmem
  refine ⟨by rw [h1], by simp [h1, h2], ?_, ?_, fun reg2 h0 => by simp [stop_generation, h0]⟩
  · simp only [h1, h2]
    rw [dmem_dsetStatus, dmem_dsetStatus]
    exact hmem
  · simp only [h1, h2]
    rw [dget_dsetStatus_self, dget_dsetStatus_self, he]
    rfl

theorem claim3_witness :
    dmem (register [] "r1" "t1" "key1") "r1" = true ∧
    (stop_generation (stop_generation (register [] "r1" "t1" "key1") "r1").1 "r1").2 =
      StopResult.stopping :=
  ⟨by decide,
    (claim3_amended_idempotent (register [] "r1" "t1" "key1") "r1" (by decide)).2.1⟩

/-- Claim C4 counterexample: on a terminal-success poll, the trace shows the
`listMessages` call is made with a registry that still contains the run's
entry ("r1" is present in the snapshot recorded at the call), refuting "the
entry is already absent from the Registry at the time listMessages is
called". -/
theorem claim4_counterexample :
    (pollLoop (register [] "r1" "t1" "key1") "r1" "t1"
        [{ poll := Except.ok "completed", cancelOk := Except.ok () }]
        (Except.ok "hello")).1 =
      [GwEvent.pollRun (register [] "r1" "t1" "key1"),
       GwEvent.listMessages (register [] "r1" "t1" "key1")] ∧
    dmem (register [] "r1" "t1" "key1") "r1" = true :=
  ⟨rfl, rfl⟩

/-- Claim C4 (amended): on terminal success the coordinator fetches the
latest message via listMessages first, while the entry is still present in
the registry, and only then removes the entry and returns Completed with
the message text; the entry is absent once Completed is returned. -/
theorem claim4_fetch_then_remove (reg : Dict) (rid tid text : String)
    (e : RunEntry) (co : Except String Unit)
    (hnd : (keys reg).Nodup) (hget : dget reg rid = some e)
    (hst : e.status ≠ "cancelled") :
    runTick reg rid tid { poll := Except.ok "completed", cancelOk := co }
        (Except.ok text) =
      TickOut.ret [GwEvent.pollRun reg, GwEvent.listMessages reg] (ddel reg rid)
        (LoopResult.completed text tid rid) ∧
    dmem reg rid = true ∧
    dmem (ddel reg rid) rid = false := by
  refine ⟨by simp [runTick, hget, hst], by simp [dmem, hget],
    dmem_ddel_self reg rid hnd⟩

theorem claim4_witness :
    dget [("r1", RunEntry.mk "t1" "key1" "running")] "r1" =
      some (RunEntry.mk "t1" "key1" "running") ∧
    (RunEntry.mk "t1" "key1" "running").status ≠ "cancelled" ∧
    dmem (ddel [("r1", RunEntry.mk "t1" "key1" "running")] "r1") "r1" = false := by
  refine ⟨by decide, by decide, ?_⟩
  exact (claim4_fetch_then_remove [("r1", RunEntry.mk "t1" "key1" "running")] "r1"
    "t1" "hello" (RunEntry.mk "t1" "key1" "running") (Except.ok ()) (by decide)
    (by decide) (by decide)).2.2

/-- Claim C5: whenever the loop surfaces any result — cancellation, terminal
success, terminal failure, or an error raised by a gateway call after
registration — the run id is absent from the final registry; no entry is
leaked on any exit path. -/
theorem claim5_no_leak (reg : Dict) (rid tid : String) (ticks : List Tick)
    (lm : Except String String) (r : LoopResult)
    (hnd : (keys reg).Nodup)
    (h : (pollLoop reg rid tid ticks lm).2.2 = some r) :
    dmem (pollLoop reg rid tid ticks lm).2.1 rid = false := by
  revert reg
  induction ticks with
  | nil =>
      intro reg hnd h
      simp [pollLoop] at h
  | cons t ts ih =>
      intro reg hnd h
      cases hrt : runTick reg rid tid t lm with
      | ret evs reg2 r2 =>
          simp only [pollLoop, hrt]
          exact runTick_ret_dmem hnd hrt
      | cont evs reg2 =>
          obtain ⟨hre, _⟩ := runTick_cont hrt
          subst hre
          simp only [pollLoop, hrt] at h ⊢
          exact ih reg2 hnd h

theorem claim5_witness :
    (keys (register [] "r1" "t1" "key1")).Nodup ∧
    (pollLoop (register [] "r1" "t1" "key1") "r1" "t1"
        [{ poll := Except.ok "completed", cancelOk := Except.ok () }]
        (Except.ok "hi")).2.2 =
      some (LoopResult.completed "hi" "t1" "r1") ∧
    dmem (pollLoop (register [] "r1" "t1" "key1") "r1" "t1"
        [{ poll := Except.ok "completed", cancelOk := Except.ok () }]
        (Except.ok "hi")).2.1 "r1" = false := by
  refine ⟨by decide, by decide, ?_⟩
  exact claim5_no_leak (register [] "r1" "t1" "key1") "r1" "t1"
    [{ poll := Except.ok "completed", cancelOk := Except.ok () }]
    (Except.ok "hi") (LoopResult.completed "hi" "t1" "r1") (by decide) (by decide)

/-- Claim C6: on a terminal-failure poll the loop raises, the handler
removes the entry, and the caller gets an HTTP 500 whose message is the
stringified cause; exactly one pollRun is in the trace — no retry of the
gateway call is attempted even when more oracle input is available. -/
theorem claim6_terminal_failure (reg : Dict) (rid tid : String) (e : RunEntry)
    (ts : List Tick) (lm : Except String String)
    (hnd : (keys reg).Nodup) (hget : dget reg rid = some e)
    (hst : e.status ≠ "cancelled") :
    pollLoop reg rid tid
        ({ poll := Except.ok "failed", cancelOk := Except.ok () } :: ts) lm =
      ([GwEvent.pollRun reg], exceptCleanup reg rid,
        some (LoopResult.httpError 500
          (strOfExc (PyExc.http 500 "Assistant run failed")))) ∧
    dmem (exceptCleanup reg rid) rid = false ∧
    strOfExc (PyExc.http 500 "Assistant run failed") = "500: Assistant run failed" := by
  have hne : ¬(("failed" : String) = "completed") := by decide
  refine ⟨?_, dmem_exceptCleanup_self reg rid hnd, rfl⟩
  simp [pollLoop, runTick, hget, hst, hne]

theorem claim6_witness :
    dget [("r1", RunEntry.mk "t1" "key1" "running")] "r1" =
      some (RunEntry.mk "t1" "key1" "running") ∧
    dmem (exceptCleanup [("r1", RunEntry.mk "t1" "key1" "running")] "r1") "r1" =
      false := by
  refine ⟨by decide, ?_⟩
  exact (claim6_terminal_failure [("r1", RunEntry.mk "t1" "key1" "running")] "r1"
    "t1" (RunEntry.mk "t1" "key1" "running") [] (Except.ok "x") (by decide)
    (by decide) (by decide)).2.1

/-- Claim C7: a stop request for a run id absent from the registry (never
registered, or already removed) returns NotFound (the 404) and leaves the
registry unchanged. -/
theorem claim7_stop_unknown (reg : Dict) (rid : String)
    (h : dmem reg rid = false) :
    stop_generation reg rid = (reg, StopResult.notFound) := by
  simp [stop_generation, h]

theorem claim7_witness :
    dmem ([] : Dict) "r9" = false ∧
    stop_generation ([] : Dict) "r9" = ([], StopResult.notFound) :=
  ⟨by decide, claim7_stop_unknown [] "r9" (by decide)⟩

/-- Claim C8: within one poll tick, with the entry's status flag already
"cancelled", the loop returns Cancelled whatever status the gateway
reported on that same tick (in particular "completed" or "failed"), because
the cancellation check at line 86 precedes the status interpretation at
lines 94-97. -/
theorem claim8_cancel_precedence (reg : Dict) (rid tid st : String)
    (e : RunEntry) (lm : Except String String)
    (hget : dget reg rid = some e) (hst : e.status = "cancelled") :
    runTick reg rid tid { poll := Except.ok st, cancelOk := Except.ok () } lm =
      TickOut.ret [GwEvent.pollRun reg, GwEvent.cancelRun reg] (ddel reg rid)
        (LoopResult.cancelled tid) := by
  simp [runTick, hget, hst]

theorem claim8_witness :
    dget [("r1", RunEntry.mk "t1" "key1" "cancelled")] "r1" =
      some (RunEntry.mk "t1" "key1" "cancelled") ∧
    runTick [("r1", RunEntry.mk "t1" "key1" "cancelled")] "r1" "t1"
        { poll := Except.ok "completed", cancelOk := Except.ok () }
        (Except.ok "x") =
      TickOut.ret
        [GwEvent.pollRun [("r1", RunEntry.mk "t1" "key1" "cancelled")],
         GwEvent.cancelRun [("r1", RunEntry.mk "t1" "key1" "cancelled")]]
        (ddel [("r1", RunEntry.mk "t1" "key1" "cancelled")] "r1")
        (LoopResult.cancelled "t1") := by
  refine ⟨by decide, ?_⟩
  exact claim8_cancel_precedence [("r1", RunEntry.mk "t1" "key1" "cancelled")]
    "r1" "t1" "completed" (RunEntry.mk "t1" "key1" "cancelled") (Except.ok "x")
    (by decide) rfl

/-- Claim C9: at every reachable state, whenever a poll loop is about to
perform the unguarded read `active_runs[run.id]["status"]` (line 86), its
entry is present in the registry; and no loop ever enters the exception
handler with a KeyError from that read. -/
theorem claim9_flag_read (s : Sys) (h : Reachable s) :
    (∀ rid ls st, s.loops rid = some ls → ls.ph = Phase.check st →
      (dget s.reg rid).isSome = true) ∧
    (∀ rid ls k, s.loops rid = some ls →
      ls.ph ≠ Phase.excClean (PyExc.keyError k)) := by
  have hi := reachable_inv h
  refine ⟨fun rid ls st hl hp => ?_, hi.2.2⟩
  have hd : dmem s.reg rid = true := (hi.2.1 rid).mpr ⟨ls, hl, by rw [hp]; rfl⟩
  simpa [dmem] using hd

theorem claim9_witness : (dget sysCheck1.reg "r1").isSome = true :=
  (claim9_flag_read sysCheck1 reach_check1).1 "r1" ⟨"t1", Phase.check "completed"⟩
    "completed" (by decide) rfl

/-- Claim C10: a supplied empty-string thread identifier is falsy in the
`if not request.thread_id:` test, so it is treated exactly like an absent
one — a fresh thread is created and its identifier is used throughout;
only a non-empty thread_id is reused as given. -/
theorem claim10_empty_thread (reg : Dict) (freshTid rid client : String)
    (ticks : List Tick) (lm : Except String String) :
    process_query_run reg (some "") freshTid rid client ticks lm =
      process_query_run reg none freshTid rid client ticks lm ∧
    chooseThread (some "") freshTid = (true, freshTid) ∧
    (∀ s : String, s ≠ "" → chooseThread (some s) freshTid = (false, s)) := by
  refine ⟨rfl, rfl, fun s hs => ?_⟩
  simp [chooseThread, hs]

theorem claim10_witness :
    ("t9" : String) ≠ "" ∧ chooseThread (some "t9") "fresh1" = (false, "t9") :=
  ⟨by decide,
    (claim10_empty_thread [] "fresh1" "r1" "key1" [] (Except.ok "x")).2.2 "t9"
      (by decide)⟩

end Searchbox
